import Mathlib

/-!
Buildpack resource reconciler (`resources/buildpacks.go`)

A shallow embedding of the methods of `CfBuildpackResource`:
`resourceObject`, `Create`, `Exists`, `generateFilename`, `Read`, `Update`,
`updateBuildpack`, `Delete` and `getBuildpackFromCf`.

* Go pointers (`*int`, `*bool`) are addresses into an explicit `Heap`; `nil` is
  `none`.  Comparing two pointers with `!=` compares the addresses, never the
  cells they point to; `*p` reads the cell and faults on `nil`.
* The remote client, the collection cache and the file system are external
  collaborators.  They are parameters (`Client`, `Env`) and every call made to
  the client or the cache is appended to a trace, in program order.
* `log.Printf` has no effect on the state and is left out.
-/

/-! ## Data model -/

/-- A heap address. -/
abbrev Addr := Nat

/-- A Go `error`, identified by the text `err.Error()` returns. -/
structure Err where
  msg : String
deriving DecidableEq, Repr

/-- The handle `*os.File` returned by the packaging call. -/
structure File where
  handle : Nat
deriving DecidableEq, Repr

/-- The cells that `*bool` and `*int` pointers refer to, and the next free address. -/
structure Heap where
  boolAt : Addr → Bool
  intAt : Addr → Int
  next : Addr

/-- A new `int` variable whose address is taken. -/
def Heap.allocInt (h : Heap) (v : Int) : Addr × Heap :=
  (h.next, { h with intAt := fun a => if a = h.next then v else h.intAt a, next := h.next + 1 })

/-- A new `bool` variable whose address is taken. -/
def Heap.allocBool (h : Heap) (v : Bool) : Addr × Heap :=
  (h.next, { h with boolAt := fun a => if a = h.next then v else h.boolAt a, next := h.next + 1 })

/-- The record `models.Buildpack`; its zero value is `{}`. -/
structure Buildpack where
  GUID : String := ""
  Name : String := ""
  Position : Option Addr := none
  Enabled : Option Addr := none
  Key : String := ""
  Filename : String := ""
  Locked : Option Addr := none
deriving DecidableEq, Repr

/-- A value held under a key of the resource data. -/
inductive Value where
  | str (s : String)
  | int (i : Int)
  | bool (b : Bool)
deriving DecidableEq, Repr

/-- The value types of a schema: `schema.TypeString`, `schema.TypeInt`, `schema.TypeBool`. -/
inductive ValueType where
  | TypeString
  | TypeInt
  | TypeBool
deriving DecidableEq, Repr

/-- One entry `&schema.Schema` of the map that `Schema()` returns. -/
structure SchemaEntry where
  Kind : ValueType
  Required : Bool := false
  ForceNew : Bool := false
  Optional : Bool := false
  Default : Option Value := none
deriving DecidableEq, Repr

/-- The part of `schema.ResourceData` the resource touches: the identifier
(`d.Id()`, `d.SetId`) and the values held under the five keys of `Schema()`,
read with `d.Get(key)`. -/
structure ResourceData where
  id : String
  name : String
  path : String
  position : Int
  enabled : Bool
  locked : Bool
deriving DecidableEq, Repr

/-- The call `d.SetId(v)`. -/
def ResourceData.SetId (d : ResourceData) (v : String) : ResourceData :=
  { d with id := v }

/-- Source: `Schema`.  The keys are `name`, `path`, `position`, `enabled` and
`locked`; there is no key `filename`. -/
def CfBuildpackResource.Schema : List (String × SchemaEntry) :=
  [("name", { Kind := .TypeString, Required := true, ForceNew := true }),
   ("path", { Kind := .TypeString, Optional := true }),
   ("position", { Kind := .TypeInt, Optional := true, Default := some (.int 1) }),
   ("enabled", { Kind := .TypeBool, Optional := true, Default := some (.bool true) }),
   ("locked", { Kind := .TypeBool, Optional := true })]

/-- The call `d.Set(key, value)`.  A key that `Schema()` does not declare, or a
value of another type than the declared one, is refused with an error and
nothing is stored; every caller in the resource drops that error. -/
def ResourceData.Set (d : ResourceData) (key : String) (value : Value) : ResourceData :=
  match CfBuildpackResource.Schema.lookup key with
  | none => d
  | some _ =>
    match key, value with
    | "name", .str s => { d with name := s }
    | "path", .str s => { d with path := s }
    | "position", .int i => { d with position := i }
    | "enabled", .bool b => { d with enabled := b }
    | "locked", .bool b => { d with locked := b }
    | _, _ => d

/-- The call `d.Get(key)`: the value held under a key of `Schema()`, nothing for
any other key. -/
def ResourceData.Get (d : ResourceData) (key : String) : Option Value :=
  match CfBuildpackResource.Schema.lookup key with
  | none => none
  | some _ =>
    match key with
    | "name" => some (.str d.name)
    | "path" => some (.str d.path)
    | "position" => some (.int d.position)
    | "enabled" => some (.bool d.enabled)
    | "locked" => some (.bool d.locked)
    | _ => none

/-- The answers of the remote client (`client.Buildpack()`, `client.BuildpackBits()`)
and of the collection cache (`caching.GetBuildpacks(client)`). -/
structure Client where
  findByName : String → Except Err Buildpack
  create : String → Option Addr → Option Addr → Option Addr → Except Err Buildpack
  update : Buildpack → Except Err Buildpack
  delete : String → Option Err
  getBuildpacks : Except Err (List Buildpack)
  createBuildpackZipFile : String → Except Err (File × Int)
  uploadBuildpack : Buildpack → File → String → Option Err

/-- What `generateFilename` asks of its surroundings: `IsWebURL`, `path.Base`,
`filepath.Base`, `filepath.Abs`, and `os.Stat` followed by `IsDir`. -/
structure Env where
  isWebURL : String → Bool
  pathBase : String → String
  filepathBase : String → String
  filepathAbs : String → Except Err String
  osStat : String → Except Err Bool

/-- One call made to the client or to the cache. -/
inductive Call where
  | findByName (name : String)
  | getBuildpacks
  | create (name : String) (position enabled locked : Option Addr)
  | update (bp : Buildpack)
  | delete (guid : String)
  | createBuildpackZipFile (path : String)
  | uploadBuildpack (bp : Buildpack) (file : File) (filename : String)
deriving DecidableEq, Repr

/-- How a method ends: it returns its `error` (possibly `nil`), or the Go
runtime stops it on a nil pointer dereference. -/
inductive Outcome where
  | returned (err : Option Err)
  | nilDeref
deriving DecidableEq, Repr

/-- A finished run of `Create`, `Read`, `Update` or `Delete`. -/
structure Run where
  d : ResourceData
  heap : Heap
  outcome : Outcome
  trace : List Call

/-- A finished run of `Exists`. -/
structure ExistsRun where
  d : ResourceData
  found : Bool
  err : Option Err
  trace : List Call
deriving DecidableEq, Repr

/-! ## The methods -/

/-- The test `strings.Contains(s, sub)` on character lists. -/
def hasInfix : List Char → List Char → Bool
  | [], sub => sub.isEmpty
  | c :: cs, sub => sub.isPrefixOf (c :: cs) || hasInfix cs sub

/-- The test `strings.Contains(err.Error(), "not found")`. -/
def Err.isNotFound (e : Err) : Bool :=
  hasInfix e.msg.toList "not found".toList

/-- Source: `generateFilename`. -/
def CfBuildpackResource.generateFilename (env : Env) (buildpackPath : String) : Except Err String :=
  if env.isWebURL buildpackPath then
    .ok (env.pathBase buildpackPath)
  else
    match env.filepathAbs buildpackPath with
    | .error e => .error e
    | .ok dir =>
      let buildpackFileName := env.filepathBase dir
      match env.osStat dir with
      | .error e => .error e
      | .ok isDir => .ok (if isDir then buildpackFileName ++ ".zip" else buildpackFileName)

/-- Source: `resourceObject`.  The three locals `position`, `enabled`, `locked`
have their address taken, so each is a new heap cell. -/
def CfBuildpackResource.resourceObject (env : Env) (h : Heap) (d : ResourceData) :
    Heap × Except Err Buildpack :=
  let (position, h1) := h.allocInt d.position
  let (enabled, h2) := h1.allocBool d.enabled
  let (locked, h3) := h2.allocBool d.locked
  if d.path ≠ "" then
    match CfBuildpackResource.generateFilename env d.path with
    | .error e => (h3, .error e)
    | .ok filename =>
      (h3, .ok { GUID := d.id, Name := d.name, Enabled := some enabled, Locked := some locked,
                 Position := some position, Filename := filename })
  else
    (h3, .ok { GUID := d.id, Name := d.name, Enabled := some enabled, Locked := some locked,
               Position := some position, Filename := d.path })

/-- Source: `Exists`. -/
def CfBuildpackResource.Exists (client : Client) (d : ResourceData) : ExistsRun :=
  match client.findByName d.name with
  | .error e =>
    if e.isNotFound then ⟨d, false, none, [Call.findByName d.name]⟩
    else ⟨d, false, some e, [Call.findByName d.name]⟩
  | .ok buildpack => ⟨d.SetId buildpack.GUID, true, none, [Call.findByName d.name]⟩

/-- The loop of `getBuildpackFromCf`: the first record with the given GUID, or
the zero record. -/
def scanGuid : List Buildpack → String → Buildpack
  | [], _ => {}
  | buildpack :: rest, bpGuid => if buildpack.GUID = bpGuid then buildpack else scanGuid rest bpGuid

/-- Source: `getBuildpackFromCf`. -/
def CfBuildpackResource.getBuildpackFromCf (client : Client) (bpGuid : String) : Except Err Buildpack :=
  match client.getBuildpacks with
  | .error e => .error e
  | .ok buildpacks => .ok (scanGuid buildpacks bpGuid)

/-- Source: `updateBuildpack`.  Returns the error and the calls made. -/
def CfBuildpackResource.updateBuildpack (client : Client) (buildpackFrom buildpackTo : Buildpack)
    (buildpackPath : String) : Option Err × List Call :=
  let changed : Bool :=
    buildpackTo.Locked != buildpackFrom.Locked ||
    buildpackTo.Enabled != buildpackFrom.Enabled ||
    buildpackTo.Name != buildpackFrom.Name ||
    buildpackTo.Position != buildpackFrom.Position
  let updateErr : Option Err :=
    if changed then
      match client.update buildpackTo with
      | .error e => some e
      | .ok _ => none
    else none
  let t : List Call := if changed then [Call.update buildpackTo] else []
  match updateErr with
  | some e => (some e, t)
  | none =>
    if buildpackTo.Filename = "" then (none, t)
    else if buildpackTo.Filename ≠ buildpackFrom.Filename then
      match client.createBuildpackZipFile buildpackPath with
      | .error e => (some e, t ++ [Call.createBuildpackZipFile buildpackPath])
      | .ok (file, _) =>
        (client.uploadBuildpack buildpackTo file buildpackTo.Filename,
         t ++ [Call.createBuildpackZipFile buildpackPath,
               Call.uploadBuildpack buildpackTo file buildpackTo.Filename])
    else (none, t)

/-- Source: `Create`.  The error of `Exists` is dropped (`ok, _ :=`). -/
def CfBuildpackResource.Create (env : Env) (client : Client) (h : Heap) (d : ResourceData) : Run :=
  match CfBuildpackResource.resourceObject env h d with
  | (h1, .error e) => ⟨d, h1, .returned (some e), []⟩
  | (h1, .ok buildpack) =>
    let ex := CfBuildpackResource.Exists client d
    if ex.found then
      match CfBuildpackResource.getBuildpackFromCf client ex.d.id with
      | .error e => ⟨ex.d, h1, .returned (some e), ex.trace ++ [Call.getBuildpacks]⟩
      | .ok buildpackCf =>
        let r := CfBuildpackResource.updateBuildpack client buildpackCf buildpack ex.d.path
        ⟨ex.d, h1, .returned r.1, ex.trace ++ [Call.getBuildpacks] ++ r.2⟩
    else
      let call := Call.create buildpack.Name buildpack.Position buildpack.Enabled buildpack.Locked
      match client.create buildpack.Name buildpack.Position buildpack.Enabled buildpack.Locked with
      | .error e => ⟨ex.d, h1, .returned (some e), ex.trace ++ [call]⟩
      | .ok buildpackCf =>
        let d1 := ex.d.SetId buildpackCf.GUID
        let buildpack1 := { buildpack with GUID := buildpackCf.GUID }
        let r := CfBuildpackResource.updateBuildpack client buildpackCf buildpack1 d1.path
        ⟨d1, h1, .returned r.1, ex.trace ++ [call] ++ r.2⟩

/-- Source: `Read`. -/
def CfBuildpackResource.Read (client : Client) (h : Heap) (d : ResourceData) : Run :=
  match CfBuildpackResource.getBuildpackFromCf client d.id with
  | .error e => ⟨d, h, .returned (some e), [Call.getBuildpacks]⟩
  | .ok buildpack =>
    if buildpack.GUID = "" then
      ⟨d.SetId "", h, .returned none, [Call.getBuildpacks]⟩
    else
      let d1 := d.Set "name" (.str buildpack.Name)
      let d2 :=
        if d1.path ≠ "" then d1.Set "filename" (.str buildpack.Filename)
        else d1.Set "filename" (.str "")
      match buildpack.Position with
      | none => ⟨d2, h, .nilDeref, [Call.getBuildpacks]⟩
      | some position =>
        let d3 := d2.Set "position" (.int (h.intAt position))
        match buildpack.Enabled with
        | none => ⟨d3, h, .nilDeref, [Call.getBuildpacks]⟩
        | some enabled =>
          let d4 := d3.Set "enabled" (.bool (h.boolAt enabled))
          match buildpack.Locked with
          | none => ⟨d4, h, .nilDeref, [Call.getBuildpacks]⟩
          | some locked =>
            ⟨d4.Set "locked" (.bool (h.boolAt locked)), h, .returned none,
              [Call.getBuildpacks]⟩

/-- Source: `Update`. -/
def CfBuildpackResource.Update (env : Env) (client : Client) (h : Heap) (d : ResourceData) : Run :=
  match CfBuildpackResource.resourceObject env h d with
  | (h1, .error e) => ⟨d, h1, .returned (some e), []⟩
  | (h1, .ok buildpack) =>
    match CfBuildpackResource.getBuildpackFromCf client d.id with
    | .error e => ⟨d, h1, .returned (some e), [Call.getBuildpacks]⟩
    | .ok buildpackCf =>
      if buildpackCf.GUID = "" then
        ⟨d.SetId "", h1, .returned none, [Call.getBuildpacks]⟩
      else
        let r := CfBuildpackResource.updateBuildpack client buildpackCf buildpack d.path
        ⟨d, h1, .returned r.1, [Call.getBuildpacks] ++ r.2⟩

/-- Source: `Delete`. -/
def CfBuildpackResource.Delete (client : Client) (h : Heap) (d : ResourceData) : Run :=
  ⟨d, h, .returned (client.delete d.id), [Call.delete d.id]⟩

/-! ## Vocabulary of the properties -/

/-- The four fields the field diff of `updateBuildpack` looks at. -/
inductive DiffField where
  | locked
  | enabled
  | name
  | position
deriving DecidableEq, Repr

/-- The value of `Locked`: the cell the pointer refers to, `none` for `nil`. -/
def Buildpack.lockedVal (h : Heap) (b : Buildpack) : Option Bool := b.Locked.map h.boolAt

/-- The value of `Enabled`. -/
def Buildpack.enabledVal (h : Heap) (b : Buildpack) : Option Bool := b.Enabled.map h.boolAt

/-- The value of `Position`. -/
def Buildpack.positionVal (h : Heap) (b : Buildpack) : Option Int := b.Position.map h.intAt

/-- Whether two records hold different values in a field. -/
def differsOn (h : Heap) (o d : Buildpack) : DiffField → Bool
  | .locked => d.lockedVal h != o.lockedVal h
  | .enabled => d.enabledVal h != o.enabledVal h
  | .name => d.Name != o.Name
  | .position => d.positionVal h != o.positionVal h

/-- The fields in which two records hold different values. -/
def differingFields (h : Heap) (o d : Buildpack) : List DiffField :=
  [DiffField.locked, DiffField.enabled, DiffField.name, DiffField.position].filter (differsOn h o d)

/-- The arguments of the `Update` calls of a trace, in order. -/
def updateArgs : List Call → List Buildpack
  | [] => []
  | Call.update bp :: rest => bp :: updateArgs rest
  | _ :: rest => updateArgs rest

/-- A packaging or an upload call. -/
def Call.isArtifact : Call → Bool
  | .createBuildpackZipFile _ => true
  | .uploadBuildpack _ _ _ => true
  | _ => false

/-- A call that changes the remote side: `Create`, `Update`, `Delete`, upload. -/
def Call.isMutation : Call → Bool
  | .create _ _ _ _ => true
  | .update _ => true
  | .delete _ => true
  | .uploadBuildpack _ _ _ => true
  | _ => false

/-- A remote `Create` call. -/
def Call.isCreate : Call → Bool
  | .create _ _ _ _ => true
  | _ => false

/-- An upload call. -/
def Call.isUpload : Call → Bool
  | .uploadBuildpack _ _ _ => true
  | _ => false

/-! ## Concrete inputs -/

/-- A heap holding the cells of one fetched record: position 1, enabled, not locked. -/
def heapOne : Heap :=
  { boolAt := fun a => decide (a = 1), intAt := fun a => if a = 0 then 1 else 0, next := 3 }

/-- The fetched record `ruby` with GUID `bp-1`, its three pointers into `heapOne`. -/
def observedRuby : Buildpack :=
  { GUID := "bp-1", Name := "ruby", Position := some 0, Enabled := some 1, Locked := some 2 }

/-- The configuration of `ruby` (position 1, enabled, not locked, no path), already created. -/
def stateRuby : ResourceData :=
  { id := "bp-1", name := "ruby", path := "", position := 1, enabled := true, locked := false }

/-- The last element of a slash-separated path. -/
def baseName (p : String) : String :=
  String.mk (p.toList.reverse.takeWhile (fun c => c != '/')).reverse

/-- A file system on which every local path is absolute and names a directory. -/
def envDirs : Env :=
  { isWebURL := fun _ => false, pathBase := baseName, filepathBase := baseName,
    filepathAbs := fun p => .ok p, osStat := fun _ => .ok true }

/-- A file system on which no local path exists. -/
def envMissing : Env :=
  { envDirs with osStat := fun _ => .error ⟨"stat: no such file or directory"⟩ }

/-- A client whose calls all succeed and whose cache holds `observedRuby`. -/
def clientRuby : Client :=
  { findByName := fun _ => .ok observedRuby,
    create := fun n _ _ _ => .ok { observedRuby with GUID := "bp-2", Name := n },
    update := fun b => .ok b,
    delete := fun _ => none,
    getBuildpacks := .ok [observedRuby],
    createBuildpackZipFile := fun _ => .ok (⟨7⟩, 100),
    uploadBuildpack := fun _ _ _ => none }

/-- The record `resourceObject` builds from `stateRuby` on `heapOne`: three new cells. -/
def desiredRuby : Buildpack :=
  { GUID := "bp-1", Name := "ruby", Position := some 3, Enabled := some 4, Locked := some 5 }

/-- The configuration of `ruby` before anything is created: the identifier is empty. -/
def freshRuby : ResourceData :=
  { stateRuby with id := "" }

/-- The configuration of `ruby` with a local path, before anything is created. -/
def freshRubyWithPath : ResourceData :=
  { freshRuby with path := "/tmp/rb" }

/-- The desired record for `ruby` with the artifact `rb.zip`, sharing the cells of
`observedRuby`. -/
def desiredRubyZip : Buildpack :=
  { observedRuby with Filename := "rb.zip" }

/-- A client whose `FindByName` fails on the transport. -/
def clientDown : Client :=
  { clientRuby with findByName := fun _ => .error ⟨"connection refused"⟩ }

/-- A client on an empty remote collection whose packaging call fails. -/
def clientNoZip : Client :=
  { clientRuby with
    findByName := fun _ => .error ⟨"buildpack ruby not found"⟩,
    getBuildpacks := .ok [],
    createBuildpackZipFile := fun _ => .error ⟨"zip: cannot read directory"⟩ }

/-- A fetched record `ruby` whose position, enabled and locked are unset (`nil`). -/
def observedUnset : Buildpack :=
  { GUID := "bp-1", Name := "ruby" }

/-- A client whose cache holds `observedUnset`. -/
def clientUnset : Client :=
  { clientRuby with getBuildpacks := .ok [observedUnset] }

/-- The configuration of `ruby` with the local path `/tmp/rb`, already created as `bp-1`. -/
def stateRubyWithPath : ResourceData :=
  { stateRuby with path := "/tmp/rb" }

/-- A stale local state of `ruby` with the path `/tmp/rb`: another name, position
and flags than the remote record holds. -/
def staleRubyWithPath : ResourceData :=
  { stateRubyWithPath with name := "old", position := 9, enabled := false, locked := true }

/-- The configuration of a buildpack `go` with the local path `/tmp/go`, created as
`bp-7`, a GUID that the collection of `clientRuby` does not hold. -/
def stateGone : ResourceData :=
  { id := "bp-7", name := "go", path := "/tmp/go", position := 2, enabled := true,
    locked := false }

/-- A client whose cache holds a record `go` followed by `ruby` with the artifact
`rb.zip`. -/
def clientRubyZip : Client :=
  { clientRuby with
    getBuildpacks := .ok [{ observedRuby with GUID := "bp-3", Name := "go" }, desiredRubyZip] }

/-- The field test of `updateBuildpack`: some pointer or the name is not the same. -/
def fieldsChanged (o d : Buildpack) : Bool :=
  d.Locked != o.Locked || d.Enabled != o.Enabled || d.Name != o.Name || d.Position != o.Position

/-! ## Lemmas on `d.Set` -/

/-- Storing under `name` replaces the name. -/
theorem ResourceData.Set_name (d : ResourceData) (s : String) :
    d.Set "name" (.str s) = { d with name := s } := rfl

/-- Storing under `filename`, which `Schema` does not declare, stores nothing. -/
theorem ResourceData.Set_filename (d : ResourceData) (s : String) :
    d.Set "filename" (.str s) = d := rfl

/-- Storing under `position` replaces the position. -/
theorem ResourceData.Set_position (d : ResourceData) (i : Int) :
    d.Set "position" (.int i) = { d with position := i } := rfl

/-- Storing under `enabled` replaces the flag. -/
theorem ResourceData.Set_enabled (d : ResourceData) (b : Bool) :
    d.Set "enabled" (.bool b) = { d with enabled := b } := rfl

/-- Storing under `locked` replaces the flag. -/
theorem ResourceData.Set_locked (d : ResourceData) (b : Bool) :
    d.Set "locked" (.bool b) = { d with locked := b } := rfl

/-! ## Lemmas on `updateBuildpack` -/

/-- A field whose values differ makes the field test of `updateBuildpack` fire. -/
theorem fieldsChanged_of_differsOn (h : Heap) (o d : Buildpack) (f : DiffField)
    (hf : differsOn h o d f = true) : fieldsChanged o d = true := by
  unfold fieldsChanged
  cases f
  · have : d.Locked ≠ o.Locked := by
      intro heq
      simp [differsOn, Buildpack.lockedVal, heq] at hf
    simp [this]
  · have : d.Enabled ≠ o.Enabled := by
      intro heq
      simp [differsOn, Buildpack.enabledVal, heq] at hf
    simp [this]
  · have : d.Name ≠ o.Name := by
      intro heq
      simp [differsOn, heq] at hf
    simp [this]
  · have : d.Position ≠ o.Position := by
      intro heq
      simp [differsOn, Buildpack.positionVal, heq] at hf
    simp [this]

/-- The calls of `updateBuildpack` when the field test fires and `Update` succeeds. -/
theorem updateBuildpack_changed_ok (client : Client) (o d r : Buildpack) (path : String)
    (hc : fieldsChanged o d = true) (hok : client.update d = .ok r) :
    ∃ rest, (CfBuildpackResource.updateBuildpack client o d path).2 = Call.update d :: rest ∧
      updateArgs rest = [] ∧ rest.filter Call.isArtifact = rest := by
  unfold fieldsChanged at hc
  unfold CfBuildpackResource.updateBuildpack
  simp only [hc, hok, if_true]
  by_cases hfn : d.Filename = ""
  · exact ⟨[], by simp [hfn], rfl, rfl⟩
  · by_cases hne : d.Filename ≠ o.Filename
    · cases hz : client.createBuildpackZipFile path with
      | error e => exact ⟨[Call.createBuildpackZipFile path], by simp [hfn, hne], rfl, rfl⟩
      | ok fs =>
        obtain ⟨file, size⟩ := fs
        exact ⟨[Call.createBuildpackZipFile path, Call.uploadBuildpack d file d.Filename],
          by simp [hfn, hne], rfl, rfl⟩
    · exact ⟨[], by simp [hfn, hne], rfl, rfl⟩

/-- Every call of `updateBuildpack` is an `Update`, a packaging or an upload call. -/
theorem updateBuildpack_calls (client : Client) (o d : Buildpack) (path : String) :
    ∀ c ∈ (CfBuildpackResource.updateBuildpack client o d path).2,
      c = Call.update d ∨ c = Call.createBuildpackZipFile path ∨
        ∃ file, c = Call.uploadBuildpack d file d.Filename := by
  intro c hc
  unfold CfBuildpackResource.updateBuildpack at hc
  by_cases hch : (d.Locked != o.Locked || d.Enabled != o.Enabled || d.Name != o.Name ||
      d.Position != o.Position) = true <;>
  cases hu : client.update d <;>
  by_cases hfn : d.Filename = "" <;>
  by_cases hne : d.Filename = o.Filename <;>
  cases hz : client.createBuildpackZipFile path <;>
  simp [hch, hu, hfn, hne, hz] at hc <;>
  aesop

/-- No call of `updateBuildpack` is a remote `Create`. -/
theorem updateBuildpack_no_create (client : Client) (o d : Buildpack) (path : String) :
    (CfBuildpackResource.updateBuildpack client o d path).2.filter Call.isCreate = [] := by
  rw [List.filter_eq_nil_iff]
  intro c hc
  rcases updateBuildpack_calls client o d path c hc with rfl | rfl | ⟨file, rfl⟩ <;>
  simp [Call.isCreate]

/-- When packaging fails, `updateBuildpack` issues no upload. -/
theorem updateBuildpack_no_upload (client : Client) (o d : Buildpack) (path : String) (e : Err)
    (hz : client.createBuildpackZipFile path = .error e) :
    (CfBuildpackResource.updateBuildpack client o d path).2.filter Call.isUpload = [] := by
  unfold CfBuildpackResource.updateBuildpack
  by_cases hch : (d.Locked != o.Locked || d.Enabled != o.Enabled || d.Name != o.Name ||
      d.Position != o.Position) = true <;>
  cases hu : client.update d <;>
  by_cases hfn : d.Filename = "" <;>
  by_cases hne : d.Filename = o.Filename <;>
  simp [hch, hfn, hne, hz, Call.isUpload]

/-- The scan finds nothing when no record carries the GUID. -/
theorem scanGuid_absent (l : List Buildpack) (g : String) (habs : ∀ b ∈ l, b.GUID ≠ g) :
    scanGuid l g = {} := by
  induction l with
  | nil => rfl
  | cons b rest ih =>
    have hb : b.GUID ≠ g := habs b (by simp)
    have hrest : ∀ x ∈ rest, x.GUID ≠ g := fun x hx => habs x (by simp [hx])
    simp [scanGuid, hb, ih hrest]

/-- The scan finds a record of a collection with pairwise distinct GUIDs by its GUID. -/
theorem scanGuid_of_mem (l : List Buildpack) (o : Buildpack)
    (huniq : l.Pairwise (fun a b => a.GUID ≠ b.GUID)) (hmem : o ∈ l) :
    scanGuid l o.GUID = o := by
  induction l with
  | nil => cases hmem
  | cons b rest ih =>
    rw [List.pairwise_cons] at huniq
    rcases List.mem_cons.mp hmem with rfl | hin
    · simp [scanGuid]
    · have hb : b.GUID ≠ o.GUID := huniq.1 o hin
      simp [scanGuid, hb, ih huniq.2 hin]

/-- What `resourceObject` returns: the naming error, or the desired record. -/
theorem resourceObject_result (env : Env) (h : Heap) (d : ResourceData) :
    (CfBuildpackResource.resourceObject env h d).2 =
      if d.path ≠ "" then
        match CfBuildpackResource.generateFilename env d.path with
        | .error e => .error e
        | .ok filename =>
          .ok { GUID := d.id, Name := d.name, Enabled := some (h.next + 1),
                Locked := some (h.next + 2), Position := some h.next, Filename := filename }
      else
        .ok { GUID := d.id, Name := d.name, Enabled := some (h.next + 1),
              Locked := some (h.next + 2), Position := some h.next, Filename := d.path } := by
  unfold CfBuildpackResource.resourceObject
  by_cases hp : d.path = ""
  · simp [hp, Heap.allocInt, Heap.allocBool]
  · cases hg : CfBuildpackResource.generateFilename env d.path <;>
    simp [hp, hg, Heap.allocInt, Heap.allocBool]

/-! ## C1 -/

/-- C1 (evaluation at the failing input).  The desired record built from `stateRuby`
holds the same name, position, enabled and locked values and the same filename
as the fetched record `observedRuby`; its three pointers are new cells, the
pointer comparison of `updateBuildpack` fires, and one `Update` call is issued. -/
theorem updateBuildpack_equal_values_still_updates :
    (CfBuildpackResource.resourceObject envDirs heapOne stateRuby).2 = .ok desiredRuby ∧
    differingFields (CfBuildpackResource.resourceObject envDirs heapOne stateRuby).1
      observedRuby desiredRuby = [] ∧
    observedRuby.Filename = desiredRuby.Filename ∧
    CfBuildpackResource.updateBuildpack clientRuby observedRuby desiredRuby stateRuby.path
      = (none, [Call.update desiredRuby]) ∧
    (CfBuildpackResource.Update envDirs clientRuby heapOne stateRuby).trace
      = [Call.getBuildpacks, Call.update desiredRuby] :=
  ⟨rfl, by decide, by decide, by decide, by decide⟩

/-! ## C2 -/

/-- C2.  When the observed and the desired record differ in the value of exactly
one of locked, enabled, name, position, and the remote `Update` of the desired
record succeeds, `updateBuildpack` issues exactly one `Update` call and its
argument is the whole desired record. -/
theorem updateBuildpack_one_field_one_update (client : Client) (h : Heap)
    (o d r : Buildpack) (path : String)
    (hdiff : (differingFields h o d).length = 1)
    (hok : client.update d = .ok r) :
    updateArgs (CfBuildpackResource.updateBuildpack client o d path).2 = [d] := by
  have hex : ∃ f, differsOn h o d f = true := by
    cases hl : differingFields h o d with
    | nil => simp [hl] at hdiff
    | cons f fs =>
      have hmem : f ∈ differingFields h o d := by simp [hl]
      exact ⟨f, (List.mem_filter.mp hmem).2⟩
  obtain ⟨f, hf⟩ := hex
  obtain ⟨rest, htr, hupd, _⟩ :=
    updateBuildpack_changed_ok client o d r path (fieldsChanged_of_differsOn h o d f hf) hok
  rw [htr]
  simp [updateArgs, hupd]

/-- C2 at a concrete input: the desired name is `ruby2`, everything else is shared. -/
theorem updateBuildpack_one_field_one_update_witness :
    updateArgs (CfBuildpackResource.updateBuildpack clientRuby observedRuby
      { observedRuby with Name := "ruby2" } "").2 = [{ observedRuby with Name := "ruby2" }] :=
  updateBuildpack_one_field_one_update clientRuby heapOne observedRuby
    { observedRuby with Name := "ruby2" } { observedRuby with Name := "ruby2" } ""
    (by decide) rfl

/-! ## C3 -/

/-- C3.  In a run of `updateBuildpack` in which the `Update` call, if issued,
succeeds: when the desired filename is non-empty and differs from the observed
one, the artifact calls are one packaging call on the local path followed, when
packaging succeeds, by one upload call with the desired record, the packaged
file and the desired filename.  When the desired filename is empty or equals the
observed one, no packaging and no upload call is issued. -/
theorem updateBuildpack_artifact_rule (client : Client) (o d : Buildpack) (path : String) :
    (d.Filename ≠ "" ∧ d.Filename ≠ o.Filename →
      (Call.update d ∈ (CfBuildpackResource.updateBuildpack client o d path).2 →
        ∃ r, client.update d = .ok r) →
      (CfBuildpackResource.updateBuildpack client o d path).2.filter Call.isArtifact =
        Call.createBuildpackZipFile path ::
          (match client.createBuildpackZipFile path with
           | .ok (file, _) => [Call.uploadBuildpack d file d.Filename]
           | .error _ => [])) ∧
    (d.Filename = "" ∨ d.Filename = o.Filename →
      (CfBuildpackResource.updateBuildpack client o d path).2.filter Call.isArtifact = []) := by
  unfold CfBuildpackResource.updateBuildpack
  by_cases hc : (d.Locked != o.Locked || d.Enabled != o.Enabled || d.Name != o.Name ||
      d.Position != o.Position) = true
  · cases hu : client.update d with
    | error e =>
      simp only [hc, if_true]
      refine ⟨?_, ?_⟩
      · intro _ hupd
        obtain ⟨r, hr⟩ := hupd (by simp)
        cases hr
      · intro _
        simp [Call.isArtifact]
    | ok r =>
      simp only [hc, if_true]
      refine ⟨?_, ?_⟩
      · rintro ⟨hfn, hne⟩ _
        cases hz : client.createBuildpackZipFile path with
        | error e => simp [hfn, hne, Call.isArtifact]
        | ok fs => obtain ⟨file, size⟩ := fs; simp [hfn, hne, Call.isArtifact]
      · rintro (hfn | heq)
        · simp [hfn, Call.isArtifact]
        · by_cases hfn : d.Filename = "" <;> simp [hfn, heq, Call.isArtifact]
  · simp only [hc]
    refine ⟨?_, ?_⟩
    · rintro ⟨hfn, hne⟩ _
      cases hz : client.createBuildpackZipFile path with
      | error e => simp [hfn, hne, Call.isArtifact]
      | ok fs => obtain ⟨file, size⟩ := fs; simp [hfn, hne, Call.isArtifact]
    · rintro (hfn | heq)
      · simp [hfn, Call.isArtifact]
      · by_cases hfn : d.Filename = "" <;> simp [hfn, heq, Call.isArtifact]

/-- C3 at concrete inputs: the filename `rb.zip` against an observed empty
filename gives one packaging and one upload call; an empty desired filename
against an observed `rb.zip` gives none. -/
theorem updateBuildpack_artifact_rule_witness :
    (CfBuildpackResource.updateBuildpack clientRuby observedRuby desiredRubyZip "/tmp/rb").2.filter
        Call.isArtifact =
      [Call.createBuildpackZipFile "/tmp/rb", Call.uploadBuildpack desiredRubyZip ⟨7⟩ "rb.zip"] ∧
    (CfBuildpackResource.updateBuildpack clientRuby desiredRubyZip observedRuby "/tmp/rb").2.filter
        Call.isArtifact = [] :=
  ⟨(updateBuildpack_artifact_rule clientRuby observedRuby desiredRubyZip "/tmp/rb").1
      ⟨by decide, by decide⟩ (fun _ => ⟨desiredRubyZip, rfl⟩),
   (updateBuildpack_artifact_rule clientRuby desiredRubyZip observedRuby "/tmp/rb").2
      (Or.inl rfl)⟩

/-! ## C4 -/

/-- C4.  When `resourceObject` builds the desired record and `FindByName` finds
the name, `Create` issues no remote `Create` call and stores the found GUID as
the identifier; when the cache answers, it runs `updateBuildpack` from the
record the scan of the cache returns for that GUID to the desired record, and
when the cache fails it returns that error. -/
theorem Create_adopts_existing (env : Env) (client : Client) (h h1 : Heap) (d : ResourceData)
    (bp found : Buildpack)
    (hobj : CfBuildpackResource.resourceObject env h d = (h1, .ok bp))
    (hfind : client.findByName d.name = .ok found) :
    (CfBuildpackResource.Create env client h d).trace.filter Call.isCreate = [] ∧
    (CfBuildpackResource.Create env client h d).d.id = found.GUID ∧
    (∀ l, client.getBuildpacks = .ok l →
      (CfBuildpackResource.Create env client h d).outcome =
        .returned (CfBuildpackResource.updateBuildpack client (scanGuid l found.GUID) bp d.path).1 ∧
      (CfBuildpackResource.Create env client h d).trace =
        [Call.findByName d.name, Call.getBuildpacks] ++
          (CfBuildpackResource.updateBuildpack client (scanGuid l found.GUID) bp d.path).2) ∧
    (∀ e, client.getBuildpacks = .error e →
      (CfBuildpackResource.Create env client h d).outcome = .returned (some e) ∧
      (CfBuildpackResource.Create env client h d).trace =
        [Call.findByName d.name, Call.getBuildpacks]) := by
  cases hg : client.getBuildpacks with
  | error e =>
    simp [CfBuildpackResource.Create, hobj, CfBuildpackResource.Exists, hfind,
      CfBuildpackResource.getBuildpackFromCf, hg, ResourceData.SetId, Call.isCreate]
  | ok l =>
    have hnc := updateBuildpack_no_create client (scanGuid l found.GUID) bp d.path
    simp [CfBuildpackResource.Create, hobj, CfBuildpackResource.Exists, hfind,
      CfBuildpackResource.getBuildpackFromCf, hg, ResourceData.SetId, Call.isCreate,
      List.filter_cons, hnc]

/-- C4 at a concrete input: `ruby` is found with GUID `bp-1`. -/
theorem Create_adopts_existing_witness :
    (CfBuildpackResource.Create envDirs clientRuby heapOne freshRuby).trace.filter Call.isCreate = [] ∧
    (CfBuildpackResource.Create envDirs clientRuby heapOne freshRuby).d.id = "bp-1" :=
  ⟨(Create_adopts_existing envDirs clientRuby heapOne
      (CfBuildpackResource.resourceObject envDirs heapOne freshRuby).1 freshRuby
      { desiredRuby with GUID := "" } observedRuby rfl rfl).1,
   (Create_adopts_existing envDirs clientRuby heapOne
      (CfBuildpackResource.resourceObject envDirs heapOne freshRuby).1 freshRuby
      { desiredRuby with GUID := "" } observedRuby rfl rfl).2.1⟩

/-! ## C5 -/

/-- C5 (counterexample).  The identifier `bp-1` is carried by no record of the
cached collection, which is empty, and the configured path `/tmp/rb` does not
exist: `Update` returns the naming error of `resourceObject` and keeps the
identifier; it never looks at the collection. -/
theorem Update_naming_failure_keeps_identifier :
    clientNoZip.getBuildpacks = .ok [] ∧
    (CfBuildpackResource.Update envMissing clientNoZip heapOne stateRubyWithPath).outcome =
      .returned (some ⟨"stat: no such file or directory"⟩) ∧
    (CfBuildpackResource.Update envMissing clientNoZip heapOne stateRubyWithPath).d.id = "bp-1" ∧
    (CfBuildpackResource.Update envMissing clientNoZip heapOne stateRubyWithPath).d.id ≠ "" ∧
    (CfBuildpackResource.Update envMissing clientNoZip heapOne stateRubyWithPath).trace = [] :=
  ⟨rfl, by decide, by decide, by decide, by decide⟩

/-- C5 (amended).  When the cache answers with a collection in which no record
carries the identifier, `Read` clears the identifier, returns no error, and its
only call is the cache lookup; `Update` does the same whenever the configured
path is empty or `generateFilename` resolves it. -/
theorem absent_identifier_is_cleared (env : Env) (client : Client) (h : Heap)
    (d : ResourceData) (l : List Buildpack)
    (hl : client.getBuildpacks = .ok l) (habs : ∀ b ∈ l, b.GUID ≠ d.id) :
    ((CfBuildpackResource.Read client h d).d.id = "" ∧
      (CfBuildpackResource.Read client h d).outcome = .returned none ∧
      (CfBuildpackResource.Read client h d).trace = [Call.getBuildpacks] ∧
      (CfBuildpackResource.Read client h d).trace.filter Call.isMutation = []) ∧
    ((d.path = "" ∨ ∃ f, CfBuildpackResource.generateFilename env d.path = .ok f) →
      (CfBuildpackResource.Update env client h d).d.id = "" ∧
      (CfBuildpackResource.Update env client h d).outcome = .returned none ∧
      (CfBuildpackResource.Update env client h d).trace = [Call.getBuildpacks] ∧
      (CfBuildpackResource.Update env client h d).trace.filter Call.isMutation = []) := by
  have hscan := scanGuid_absent l d.id habs
  refine ⟨?_, ?_⟩
  · simp [CfBuildpackResource.Read, CfBuildpackResource.getBuildpackFromCf, hl, hscan,
      ResourceData.SetId, Call.isMutation]
  · intro hpath
    have hres := resourceObject_result env h d
    rcases hro : CfBuildpackResource.resourceObject env h d with ⟨h1, e | bp⟩
    · rw [hro] at hres
      exfalso
      by_cases hp : d.path = ""
      · simp [hp] at hres
      · rcases hpath with hp0 | ⟨f, hf⟩
        · exact hp hp0
        · simp [hp, hf] at hres
    · simp [CfBuildpackResource.Update, hro, CfBuildpackResource.getBuildpackFromCf, hl, hscan,
        ResourceData.SetId, Call.isMutation]

/-- C5 (amended) at a concrete input: the identifier `bp-7` against a collection
that holds only `bp-1`, with a path that resolves. -/
theorem absent_identifier_is_cleared_witness :
    (CfBuildpackResource.Read clientRuby heapOne stateGone).d.id = "" ∧
    (CfBuildpackResource.Read clientRuby heapOne stateGone).outcome = .returned none ∧
    (CfBuildpackResource.Update envDirs clientRuby heapOne stateGone).d.id = "" ∧
    (CfBuildpackResource.Update envDirs clientRuby heapOne stateGone).outcome = .returned none ∧
    (CfBuildpackResource.Update envDirs clientRuby heapOne stateGone).trace.filter
      Call.isMutation = [] :=
  have hthm := absent_identifier_is_cleared envDirs clientRuby heapOne stateGone [observedRuby]
    rfl (by decide)
  have hupd := hthm.2 (Or.inr ⟨"go.zip", rfl⟩)
  ⟨hthm.1.1, hthm.1.2.1, hupd.1, hupd.2.1, hupd.2.2.2⟩

/-! ## C6 -/

/-- C6.  `Exists` returns `(true, nil)` exactly when `FindByName` succeeds, and
then the identifier is the found GUID; on a not-found error it returns
`(false, nil)` and on any other error `(false, err)` with that error, the
resource data unchanged in both cases. -/
theorem Exists_classification (client : Client) (d : ResourceData) :
    ((CfBuildpackResource.Exists client d).found = true ↔
      ∃ b, client.findByName d.name = .ok b) ∧
    (∀ b, client.findByName d.name = .ok b →
      (CfBuildpackResource.Exists client d).found = true ∧
      (CfBuildpackResource.Exists client d).err = none ∧
      (CfBuildpackResource.Exists client d).d.id = b.GUID) ∧
    (∀ e, client.findByName d.name = .error e → e.isNotFound = true →
      (CfBuildpackResource.Exists client d).found = false ∧
      (CfBuildpackResource.Exists client d).err = none ∧
      (CfBuildpackResource.Exists client d).d = d) ∧
    (∀ e, client.findByName d.name = .error e → e.isNotFound = false →
      (CfBuildpackResource.Exists client d).found = false ∧
      (CfBuildpackResource.Exists client d).err = some e ∧
      (CfBuildpackResource.Exists client d).d = d) := by
  cases hf : client.findByName d.name with
  | error e =>
    by_cases hnf : e.isNotFound = true
    · simp [CfBuildpackResource.Exists, hf, hnf]
    · simp [CfBuildpackResource.Exists, hf, hnf]
  | ok b => simp [CfBuildpackResource.Exists, hf, ResourceData.SetId]

/-- C6 at concrete inputs: a found name, a not-found error, a transport error. -/
theorem Exists_classification_witness :
    ((CfBuildpackResource.Exists clientRuby freshRuby).found = true ∧
      (CfBuildpackResource.Exists clientRuby freshRuby).err = none ∧
      (CfBuildpackResource.Exists clientRuby freshRuby).d.id = "bp-1") ∧
    ((CfBuildpackResource.Exists clientNoZip freshRuby).found = false ∧
      (CfBuildpackResource.Exists clientNoZip freshRuby).err = none ∧
      (CfBuildpackResource.Exists clientNoZip freshRuby).d = freshRuby) ∧
    ((CfBuildpackResource.Exists clientDown freshRuby).found = false ∧
      (CfBuildpackResource.Exists clientDown freshRuby).err = some ⟨"connection refused"⟩ ∧
      (CfBuildpackResource.Exists clientDown freshRuby).d = freshRuby) :=
  ⟨(Exists_classification clientRuby freshRuby).2.1 observedRuby rfl,
   (Exists_classification clientNoZip freshRuby).2.2.1 ⟨"buildpack ruby not found"⟩ rfl
     (by decide),
   (Exists_classification clientDown freshRuby).2.2.2 ⟨"connection refused"⟩ rfl (by decide)⟩

/-! ## C7 -/

/-- C7 (evaluation at the failing input).  `FindByName` fails with
`connection refused`, which is not a not-found error, and `Exists` reports it;
`Create` drops it, issues the remote `Create` call and returns no error. -/
theorem Create_drops_exists_error :
    (CfBuildpackResource.Exists clientDown freshRuby).err = some ⟨"connection refused"⟩ ∧
    Err.isNotFound ⟨"connection refused"⟩ = false ∧
    (CfBuildpackResource.Create envDirs clientDown heapOne freshRuby).outcome = .returned none ∧
    (CfBuildpackResource.Create envDirs clientDown heapOne freshRuby).trace =
      [Call.findByName "ruby", Call.create "ruby" (some 3) (some 4) (some 5),
       Call.update { desiredRuby with GUID := "bp-2" }] := by
  decide

/-! ## C8 -/

/-- C8 (counterexample).  On an empty remote collection `Create` of `ruby` with
the path `/tmp/rb` returns the packaging error after the remote `Create` and
`Update` calls have been issued. -/
theorem Create_packaging_failure_after_mutation :
    clientNoZip.createBuildpackZipFile freshRubyWithPath.path
      = .error ⟨"zip: cannot read directory"⟩ ∧
    (CfBuildpackResource.Create envDirs clientNoZip heapOne freshRubyWithPath).outcome =
      .returned (some ⟨"zip: cannot read directory"⟩) ∧
    (CfBuildpackResource.Create envDirs clientNoZip heapOne freshRubyWithPath).trace =
      [Call.findByName "ruby", Call.create "ruby" (some 3) (some 4) (some 5),
       Call.update { desiredRuby with GUID := "bp-2", Filename := "rb.zip" },
       Call.createBuildpackZipFile "/tmp/rb"] ∧
    (CfBuildpackResource.Create envDirs clientNoZip heapOne freshRubyWithPath).trace.filter
      Call.isMutation ≠ [] :=
  ⟨rfl, by decide, by decide, by decide⟩

/-- C8 (amended).  When `generateFilename` fails on a non-empty path, `Create`
and `Update` return that error and have issued no call at all; when the
packaging call fails, neither `Create` nor `Update` issues an upload. -/
theorem local_failures (env : Env) (client : Client) (h : Heap) (d : ResourceData) (e : Err) :
    (d.path ≠ "" → CfBuildpackResource.generateFilename env d.path = .error e →
      (CfBuildpackResource.Create env client h d).outcome = .returned (some e) ∧
      (CfBuildpackResource.Create env client h d).trace = [] ∧
      (CfBuildpackResource.Update env client h d).outcome = .returned (some e) ∧
      (CfBuildpackResource.Update env client h d).trace = []) ∧
    (client.createBuildpackZipFile d.path = .error e →
      (CfBuildpackResource.Create env client h d).trace.filter Call.isUpload = [] ∧
      (CfBuildpackResource.Update env client h d).trace.filter Call.isUpload = []) := by
  refine ⟨?_, ?_⟩
  · intro hp hg
    have hres := resourceObject_result env h d
    rw [if_pos hp, hg] at hres
    rcases hro : CfBuildpackResource.resourceObject env h d with ⟨h1, e1 | bp⟩
    · rw [hro] at hres
      simp only [Except.error.injEq] at hres
      subst hres
      simp [CfBuildpackResource.Create, CfBuildpackResource.Update, hro]
    · rw [hro] at hres
      cases hres
  · intro hz
    rcases hro : CfBuildpackResource.resourceObject env h d with ⟨h1, e1 | bp⟩
    · simp [CfBuildpackResource.Create, CfBuildpackResource.Update, hro]
    · refine ⟨?_, ?_⟩
      · cases hf : client.findByName d.name with
        | error e2 =>
          cases hc : client.create bp.Name bp.Position bp.Enabled bp.Locked with
          | error e3 =>
            by_cases hnf : e2.isNotFound = true <;>
            simp [CfBuildpackResource.Create, hro, CfBuildpackResource.Exists, hf, hc, hnf,
              Call.isUpload]
          | ok cf =>
            have hnu := updateBuildpack_no_upload client cf { bp with GUID := cf.GUID } d.path e hz
            by_cases hnf : e2.isNotFound = true <;>
            simp [CfBuildpackResource.Create, hro, CfBuildpackResource.Exists, hf, hc, hnf,
              Call.isUpload, ResourceData.SetId, List.filter_cons, hnu]
        | ok found =>
          cases hg : client.getBuildpacks with
          | error e2 =>
            simp [CfBuildpackResource.Create, hro, CfBuildpackResource.Exists, hf,
              CfBuildpackResource.getBuildpackFromCf, hg, Call.isUpload]
          | ok l =>
            have hnu := updateBuildpack_no_upload client (scanGuid l found.GUID) bp d.path e hz
            simp [CfBuildpackResource.Create, hro, CfBuildpackResource.Exists, hf,
              CfBuildpackResource.getBuildpackFromCf, hg, Call.isUpload, ResourceData.SetId,
              List.filter_cons, hnu]
      · cases hg : client.getBuildpacks with
        | error e2 =>
          simp [CfBuildpackResource.Update, hro, CfBuildpackResource.getBuildpackFromCf, hg,
            Call.isUpload]
        | ok l =>
          have hnu := updateBuildpack_no_upload client (scanGuid l d.id) bp d.path e hz
          by_cases hguid : (scanGuid l d.id).GUID = "" <;>
          simp [CfBuildpackResource.Update, hro, CfBuildpackResource.getBuildpackFromCf, hg,
            Call.isUpload, hguid, List.filter_cons, hnu]

/-- C8 (amended) at concrete inputs: a path that does not exist, and a packaging
call that fails. -/
theorem local_failures_witness :
    ((CfBuildpackResource.Create envMissing clientRuby heapOne freshRubyWithPath).outcome =
        .returned (some ⟨"stat: no such file or directory"⟩) ∧
      (CfBuildpackResource.Create envMissing clientRuby heapOne freshRubyWithPath).trace = [] ∧
      (CfBuildpackResource.Update envMissing clientRuby heapOne freshRubyWithPath).outcome =
        .returned (some ⟨"stat: no such file or directory"⟩) ∧
      (CfBuildpackResource.Update envMissing clientRuby heapOne freshRubyWithPath).trace = []) ∧
    ((CfBuildpackResource.Create envDirs clientNoZip heapOne freshRubyWithPath).trace.filter
        Call.isUpload = [] ∧
      (CfBuildpackResource.Update envDirs clientNoZip heapOne freshRubyWithPath).trace.filter
        Call.isUpload = []) :=
  ⟨(local_failures envMissing clientRuby heapOne freshRubyWithPath
      ⟨"stat: no such file or directory"⟩).1 (by decide) rfl,
   (local_failures envDirs clientNoZip heapOne freshRubyWithPath
      ⟨"zip: cannot read directory"⟩).2 rfl⟩

/-! ## C9 -/

/-- C9 (counterexample).  First input: the cache holds a record with GUID `bp-1`,
the identifier, whose position, enabled and locked are `nil`; `Read` does not
return, it stops on the dereference of the position.  Second input: the path is
`/tmp/rb` and the record `bp-1` of the cache has the filename `rb.zip`; `Read`
returns, and the state holds nothing under `filename`, a key that `Schema` does
not declare. -/
theorem Read_write_back_fails :
    (clientUnset.getBuildpacks = .ok [observedUnset] ∧
      observedUnset.GUID = stateRuby.id ∧
      (CfBuildpackResource.Read clientUnset heapOne stateRuby).outcome = .nilDeref ∧
      (CfBuildpackResource.Read clientUnset heapOne stateRuby).outcome ≠ .returned none) ∧
    (desiredRubyZip ∈ [{ observedRuby with GUID := "bp-3", Name := "go" }, desiredRubyZip] ∧
      desiredRubyZip.GUID = staleRubyWithPath.id ∧
      desiredRubyZip.Filename = "rb.zip" ∧
      staleRubyWithPath.path ≠ "" ∧
      (CfBuildpackResource.Read clientRubyZip heapOne staleRubyWithPath).outcome = .returned none ∧
      CfBuildpackResource.Schema.lookup "filename" = none ∧
      (CfBuildpackResource.Read clientRubyZip heapOne staleRubyWithPath).d.Get "filename" = none ∧
      (CfBuildpackResource.Read clientRubyZip heapOne staleRubyWithPath).d = stateRubyWithPath) :=
  ⟨⟨rfl, by decide, by decide, by decide⟩,
   ⟨by decide, by decide, by decide, by decide, by decide, by decide, by decide, by decide⟩⟩

/-- C9 (amended).  When the identifier is non-empty, the GUIDs of the cached
collection are pairwise distinct, and a record of the collection carries the
identifier and has its position, enabled and locked set, `Read` returns no
error, keeps the identifier and the path, and stores the name and the values of
position, enabled and locked of that record. -/
theorem Read_writes_back (client : Client) (h : Heap) (d : ResourceData)
    (l : List Buildpack) (o : Buildpack)
    (hl : client.getBuildpacks = .ok l)
    (huniq : l.Pairwise (fun a b => a.GUID ≠ b.GUID))
    (hmem : o ∈ l) (hguid : o.GUID = d.id) (hid : d.id ≠ "")
    (hp : o.Position ≠ none) (he : o.Enabled ≠ none) (hk : o.Locked ≠ none) :
    (CfBuildpackResource.Read client h d).outcome = .returned none ∧
    (CfBuildpackResource.Read client h d).d.id = d.id ∧
    (CfBuildpackResource.Read client h d).d.name = o.Name ∧
    some (CfBuildpackResource.Read client h d).d.position = o.positionVal h ∧
    some (CfBuildpackResource.Read client h d).d.enabled = o.enabledVal h ∧
    some (CfBuildpackResource.Read client h d).d.locked = o.lockedVal h ∧
    (CfBuildpackResource.Read client h d).d.path = d.path ∧
    (CfBuildpackResource.Read client h d).trace = [Call.getBuildpacks] := by
  have hscan : scanGuid l d.id = o := hguid ▸ scanGuid_of_mem l o huniq hmem
  have hne : o.GUID ≠ "" := hguid ▸ hid
  obtain ⟨p, hp⟩ := Option.ne_none_iff_exists'.mp hp
  obtain ⟨e, he⟩ := Option.ne_none_iff_exists'.mp he
  obtain ⟨k, hk⟩ := Option.ne_none_iff_exists'.mp hk
  by_cases hpath : d.path = "" <;>
  simp [CfBuildpackResource.Read, CfBuildpackResource.getBuildpackFromCf, hl, hscan, hne, hp, he,
    hk, hpath, Buildpack.positionVal, Buildpack.enabledVal, Buildpack.lockedVal,
    ResourceData.Set_name, ResourceData.Set_filename, ResourceData.Set_position,
    ResourceData.Set_enabled, ResourceData.Set_locked]

/-- C9 (amended) at a concrete input: a stale state with the path `/tmp/rb` read
against a two-record collection whose second record is `ruby` with GUID `bp-1`. -/
theorem Read_writes_back_witness :
    (CfBuildpackResource.Read clientRubyZip heapOne staleRubyWithPath).outcome = .returned none ∧
    (CfBuildpackResource.Read clientRubyZip heapOne staleRubyWithPath).d.id = "bp-1" ∧
    (CfBuildpackResource.Read clientRubyZip heapOne staleRubyWithPath).d.name = "ruby" ∧
    (CfBuildpackResource.Read clientRubyZip heapOne staleRubyWithPath).d.position = 1 ∧
    (CfBuildpackResource.Read clientRubyZip heapOne staleRubyWithPath).d.enabled = true ∧
    (CfBuildpackResource.Read clientRubyZip heapOne staleRubyWithPath).d.locked = false :=
  have hthm := Read_writes_back clientRubyZip heapOne staleRubyWithPath
    [{ observedRuby with GUID := "bp-3", Name := "go" }, desiredRubyZip] desiredRubyZip rfl
    (by decide) (by decide) (by decide) (by decide) (by decide) (by decide) (by decide)
  ⟨hthm.1, hthm.2.1, hthm.2.2.1, Option.some.inj hthm.2.2.2.1, Option.some.inj hthm.2.2.2.2.1,
    Option.some.inj hthm.2.2.2.2.2.1⟩

/-! ## C10 -/

/-- C10 (evaluation at the failing input).  `Create` of `ruby` with an empty
identifier, when `FindByName` finds the record `bp-1`: the identifier becomes
`bp-1`, and the desired record handed to `updateBuildpack`, which is the argument
of its `Update` call, still has the empty GUID it was built with. -/
theorem Create_adopted_desired_keeps_old_guid :
    (CfBuildpackResource.Create envDirs clientRuby heapOne freshRuby).d.id = "bp-1" ∧
    (CfBuildpackResource.Create envDirs clientRuby heapOne freshRuby).trace =
      [Call.findByName "ruby", Call.getBuildpacks, Call.update { desiredRuby with GUID := "" }] ∧
    (updateArgs (CfBuildpackResource.Create envDirs clientRuby heapOne freshRuby).trace).map
      Buildpack.GUID = [""] := by
  decide
